import Mathlib

/-!
Verification of the GuildQuest application core (src/mainold.py).

This file shallowly embeds the data model and the operations of the
program: the world-clock time model, the campaign/event sharing and
permission resolver, inventory-change application, the timeline range
query, and the JSON persistence codec (save/load).  Python dicts are
modelled as insertion-ordered association lists, Python exceptions as
`Except`/`Option` results, and Python truthiness is modelled explicitly
where the source relies on it.
-/

namespace GuildQuest

/-! ## Enums (mainold.py lines 13-33) -/

inductive Visibility where
  | PUBLIC
  | PRIVATE
deriving DecidableEq, Repr

inductive PermissionLevel where
  | VIEW_ONLY
  | COLLABORATIVE
deriving DecidableEq, Repr

inductive TimeDisplayPreference where
  | WORLD
  | LOCAL
  | BOTH
deriving DecidableEq, Repr

inductive TimeRangeType where
  | DAY
  | WEEK
  | MONTH
  | YEAR
deriving DecidableEq, Repr

/-- The string tag (`.value`) of a `Visibility` member. -/
def Visibility.value : Visibility → String
  | .PUBLIC => "PUBLIC"
  | .PRIVATE => "PRIVATE"

/-- Models `Visibility(s)`: value lookup, `ValueError` as `none`. -/
def Visibility.fromValue : String → Option Visibility
  | "PUBLIC" => some .PUBLIC
  | "PRIVATE" => some .PRIVATE
  | _ => none

/-- The string tag (`.value`) of a `PermissionLevel` member. -/
def PermissionLevel.value : PermissionLevel → String
  | .VIEW_ONLY => "VIEW_ONLY"
  | .COLLABORATIVE => "COLLABORATIVE"

/-- Models `PermissionLevel(s)`: value lookup, `ValueError` as `none`. -/
def PermissionLevel.fromValue : String → Option PermissionLevel
  | "VIEW_ONLY" => some .VIEW_ONLY
  | "COLLABORATIVE" => some .COLLABORATIVE
  | _ => none

/-- Python `str(member)` on a `(str, Enum)` member uses `Enum.__str__`, which
yields `"ClassName.MEMBER_NAME"`, not the member value.  (Only the
separate `StrEnum` class of Python 3.11+ overrides `__str__` to the bare
value; `PermissionLevel` is a plain `(str, Enum)`.) -/
def PermissionLevel.pyStr : PermissionLevel → String
  | .VIEW_ONLY => "PermissionLevel.VIEW_ONLY"
  | .COLLABORATIVE => "PermissionLevel.COLLABORATIVE"

/-- The string tag (`.value`) of a `TimeDisplayPreference` member. -/
def TimeDisplayPreference.value : TimeDisplayPreference → String
  | .WORLD => "WORLD"
  | .LOCAL => "LOCAL"
  | .BOTH => "BOTH"

/-- Models `TimeDisplayPreference(s)`: value lookup, `ValueError` as `none`. -/
def TimeDisplayPreference.fromValue : String → Option TimeDisplayPreference
  | "WORLD" => some .WORLD
  | "LOCAL" => some .LOCAL
  | "BOTH" => some .BOTH
  | _ => none

/-! ## Time model (mainold.py lines 40-68)

`WorldClockTime` is a frozen dataclass whose `__post_init__` validates
the fields, so a `WorldClockTime(day, hour, minute)` call is modelled by
the fallible constructor `WorldClockTime.mk?`; the raw structure plus
the `valid` predicate describe the states `__post_init__` accepts. -/

structure WorldClockTime where
  day : Int
  hour : Int
  minute : Int
deriving DecidableEq, Repr

/-- The field bounds enforced by `WorldClockTime.__post_init__`. -/
def WorldClockTime.valid (t : WorldClockTime) : Prop :=
  0 ≤ t.day ∧ 0 ≤ t.hour ∧ t.hour ≤ 23 ∧ 0 ≤ t.minute ∧ t.minute ≤ 59

instance (t : WorldClockTime) : Decidable t.valid := by
  unfold WorldClockTime.valid; infer_instance

/-- Models `WorldClockTime(day, hour, minute)`: `__post_init__` raises
`ValueError` (modelled as `Except.error`) on the first out-of-range
field, checking day, then hour, then minute. -/
def WorldClockTime.mk? (day hour minute : Int) : Except String WorldClockTime :=
  if day < 0 then .error "day must be >= 0"
  else if ¬ (0 ≤ hour ∧ hour ≤ 23) then .error "hour must be 0..23"
  else if ¬ (0 ≤ minute ∧ minute ≤ 59) then .error "minute must be 0..59"
  else .ok ⟨day, hour, minute⟩

/-- Models `to_minutes`: `day * 24 * 60 + hour * 60 + minute`. -/
def WorldClockTime.to_minutes (t : WorldClockTime) : Int :=
  t.day * 24 * 60 + t.hour * 60 + t.minute

/-- Models `plus_minutes`: raises `ValueError` when the total would be
negative, otherwise renormalizes.  Python `//` and `%` on a negative
total never occur here (the total is checked non-negative first), and on
non-negative operands they agree with the Lean `Int` operators for division and remainder
(Euclidean division), which we use. -/
def WorldClockTime.plus_minutes (t : WorldClockTime) (delta : Int) :
    Except String WorldClockTime :=
  let total := t.to_minutes + delta
  if total < 0 then .error "time cannot go negative"
  else
    let day := total / (24 * 60)
    let rem := total % (24 * 60)
    .ok ⟨day, rem / 60, rem % 60⟩

/-- Models `str(t)`: `f"Day {day} {hour:02d}:{minute:02d}"`. -/
def pad2 (n : Int) : String :=
  if 0 ≤ n ∧ n < 10 then "0" ++ toString n else toString n

/-- The `__str__` rendering of a `WorldClockTime`. -/
def WorldClockTime.render (t : WorldClockTime) : String :=
  "Day " ++ toString t.day ++ " " ++ pad2 t.hour ++ ":" ++ pad2 t.minute

/-! ## Realm / Settings (mainold.py lines 75-103)

`day_length_multiplier` is a Python float that the program only stores
and copies; it is modelled as an exact rational. -/

structure RealmTimeRule where
  offset_minutes : Int
  day_length_multiplier : Rat
deriving DecidableEq, Repr

/-- Models `RealmTimeRule.to_local`: a fixed offset via `plus_minutes`, which
can raise (`Except.error`) when the offset drives the time negative. -/
def RealmTimeRule.to_local (rule : RealmTimeRule) (world_time : WorldClockTime) :
    Except String WorldClockTime :=
  world_time.plus_minutes rule.offset_minutes

structure Realm where
  realm_id : String
  name : String
  description : String
  map_id : Int
  x_coord : Int
  y_coord : Int
  time_rule : RealmTimeRule
deriving DecidableEq, Repr

structure Settings where
  current_realm_id : String
  theme : String
  time_display : TimeDisplayPreference
deriving DecidableEq, Repr

/-! ## RPG domain (mainold.py lines 110-144) -/

structure InventoryItem where
  name : String
  description : String
  type : String
  rarity : Int
deriving DecidableEq, Repr

structure Character where
  char_id : String
  name : String
  class_name : String
  level : Int
  inventory : List InventoryItem
deriving DecidableEq, Repr

/-- Models `Character.add_item`: appends to the inventory. -/
def Character.add_item (c : Character) (item : InventoryItem) : Character :=
  { c with inventory := c.inventory ++ [item] }

/-- The inventory left by `Character.remove_item_by_name`: walking the
inventory in order, each item whose name matches is removed, until
`qty` items have been removed or the list ends.  (Python iterates a copy
and calls `list.remove`, which deletes the first element equal to the
current one; removing an equal element yields the same list as removing
the element itself, so the first-match walk is the same function.) -/
def removeByName (inv : List InventoryItem) (item_name : String) (qty : Nat) :
    List InventoryItem :=
  match inv, qty with
  | inv, 0 => inv
  | [], _ => []
  | it :: rest, q + 1 =>
      if it.name = item_name then removeByName rest item_name q
      else it :: removeByName rest item_name (q + 1)

/-- Models `Character.remove_item_by_name` (result state; the source also
returns the removed count, which no caller of the core uses). -/
def Character.remove_item_by_name (c : Character) (item_name : String) (qty : Nat) :
    Character :=
  { c with inventory := removeByName c.inventory item_name qty }

structure InventoryChange where
  item : InventoryItem
  delta_qty : Int
  target_char_id : Option String
deriving DecidableEq, Repr

/-! ## Sharing (mainold.py lines 151-154) -/

structure Share where
  shared_with_user : String
  permission : PermissionLevel
deriving DecidableEq, Repr

/-- First-match lookup of a username in a share list (the loop shape of
`get_permission` and `share_with`). -/
def lookupShare : List Share → String → Option PermissionLevel
  | [], _ => none
  | s :: rest, u =>
      if s.shared_with_user = u then some s.permission else lookupShare rest u

/-- The share-list update performed by `share_with`: overwrite the
permission of the first share bound to `username`, or append a new share
when none matches. -/
def upsertShare : List Share → String → PermissionLevel → List Share
  | [], u, p => [⟨u, p⟩]
  | s :: rest, u, p =>
      if s.shared_with_user = u then ⟨u, p⟩ :: rest
      else s :: upsertShare rest u p

/-! ## QuestEvent / Campaign / User (mainold.py lines 161-235) -/

structure QuestEvent where
  event_id : String
  name : String
  start_time : WorldClockTime
  end_time : Option WorldClockTime
  realm_id : String
  participant_char_ids : List String
  shares : List Share
  inventory_changes : List InventoryChange
deriving DecidableEq, Repr

/-- Models `QuestEvent.share_with`. -/
def QuestEvent.share_with (e : QuestEvent) (username : String)
    (permission : PermissionLevel) : QuestEvent :=
  { e with shares := upsertShare e.shares username permission }

/-- Models `QuestEvent.unshare_with`: removes every share bound to `username`. -/
def QuestEvent.unshare_with (e : QuestEvent) (username : String) : QuestEvent :=
  { e with shares := e.shares.filter (fun s => s.shared_with_user ≠ username) }

/-- Models `QuestEvent.get_permission`: owner of the parent campaign, else the
own share list of the event. -/
def QuestEvent.get_permission (e : QuestEvent) (username owner_username : String) :
    Option PermissionLevel :=
  if username = owner_username then some .COLLABORATIVE
  else lookupShare e.shares username

structure Campaign where
  campaign_id : String
  owner_username : String
  name : String
  visibility : Visibility
  archived : Bool
  quest_event_ids : List String
  shares : List Share
deriving DecidableEq, Repr

/-- Models `Campaign.share_with`: a no-op for the owner, otherwise an upsert. -/
def Campaign.share_with (c : Campaign) (username : String)
    (permission : PermissionLevel) : Campaign :=
  if username = c.owner_username then c
  else { c with shares := upsertShare c.shares username permission }

/-- Models `Campaign.unshare_with`: removes every share bound to `username`. -/
def Campaign.unshare_with (c : Campaign) (username : String) : Campaign :=
  { c with shares := c.shares.filter (fun s => s.shared_with_user ≠ username) }

/-- Models `Campaign.get_permission`: owner, then PUBLIC visibility, then the
share list, else no access. -/
def Campaign.get_permission (c : Campaign) (username : String) :
    Option PermissionLevel :=
  if username = c.owner_username then some .COLLABORATIVE
  else if c.visibility = .PUBLIC then some .VIEW_ONLY
  else lookupShare c.shares username

/-- Models `Campaign.can_view`. -/
def Campaign.can_view (c : Campaign) (username : String) : Bool :=
  (c.get_permission username).isSome

/-- Models `Campaign.can_edit`. -/
def Campaign.can_edit (c : Campaign) (username : String) : Bool :=
  c.get_permission username = some .COLLABORATIVE

structure User where
  username : String
  settings : Settings
  campaign_ids : List String
  character_ids : List String
deriving DecidableEq, Repr

/-! ## Entity stores

The `Dict[str, ...]` collections of the app are modelled as insertion-ordered
association lists (Python dicts preserve insertion order and hold each
key once); `dict.get` is first-match lookup, and mutating a stored
entity is an in-place value replacement at its key. -/

def CharMap := List (String × Character)
deriving DecidableEq

def EventMap := List (String × QuestEvent)
deriving DecidableEq

def RealmMap := List (String × Realm)
deriving DecidableEq

/-- Models `self.characters.get(cid)`. -/
def lookupChar : CharMap → String → Option Character
  | [], _ => none
  | (k, v) :: rest, cid => if k = cid then some v else lookupChar rest cid

/-- Replace the character stored at `cid` (in-place mutation of the
stored object); unchanged when the key is absent. -/
def setChar : CharMap → String → Character → CharMap
  | [], _, _ => []
  | (k, v) :: rest, cid, ch =>
      if k = cid then (k, ch) :: rest else (k, v) :: setChar rest cid ch

/-- Models `self.events.get(eid)`. -/
def lookupEvent : EventMap → String → Option QuestEvent
  | [], _ => none
  | (k, v) :: rest, eid => if k = eid then some v else lookupEvent rest eid

/-- Models `self.realms.get(rid)`. -/
def lookupRealm : RealmMap → String → Option Realm
  | [], _ => none
  | (k, v) :: rest, rid => if k = rid then some v else lookupRealm rest rid

/-! ## Inventory-change application (mainold.py lines 888-906) -/

/-- The targets of one change: `if chg.target_char_id:` uses Python
truthiness, so both `None` and the empty string fall back to the full
participant list of the event; any other string is a singleton target. -/
def InventoryChange.targets (chg : InventoryChange) (participants : List String) :
    List String :=
  match chg.target_char_id with
  | some t => if t = "" then participants else [t]
  | none => participants

/-- The effect of one change on one character: a positive delta appends
the item that many times (the `for _ in range(delta)` loop of
`add_item` calls), a negative delta removes up to `|delta|` items by
name, and a zero delta does nothing. -/
def applyChangeToChar (chg : InventoryChange) (ch : Character) : Character :=
  if 0 < chg.delta_qty then
    { ch with inventory := ch.inventory ++ List.replicate chg.delta_qty.toNat chg.item }
  else if chg.delta_qty < 0 then
    ch.remove_item_by_name chg.item.name (-chg.delta_qty).toNat
  else ch

/-- The inner loop of `_apply_event_inventory_changes` for one change:
for each target id, a missing character is skipped (`continue`),
otherwise the stored character is updated in place. -/
def applyChange (chars : CharMap) (participants : List String)
    (chg : InventoryChange) : CharMap :=
  (chg.targets participants).foldl
    (fun cs cid =>
      match lookupChar cs cid with
      | none => cs
      | some ch => setChar cs cid (applyChangeToChar chg ch))
    chars

/-- Models `GuildQuestApp._apply_event_inventory_changes`. -/
def applyEventInventoryChanges (chars : CharMap) (e : QuestEvent) : CharMap :=
  e.inventory_changes.foldl
    (fun cs chg => applyChange cs e.participant_char_ids chg) chars

/-! ## Timeline query (mainold.py lines 926-988) -/

/-- The window length of each range kind, in minutes. -/
def rangeMinutes : TimeRangeType → Int
  | .DAY => 24 * 60
  | .WEEK => 7 * 24 * 60
  | .MONTH => 30 * 24 * 60
  | .YEAR => 365 * 24 * 60

/-- Whether an start time of the event falls in the half-open window. -/
def inWindow (startM endM : Int) (e : QuestEvent) : Bool :=
  decide (startM ≤ e.start_time.to_minutes) && decide (e.start_time.to_minutes < endM)

/-- Models `GuildQuestApp._get_campaign_events_by_range`: walk the campaign
event ids in order, drop dangling ids, keep events whose start time is
in the window, then sort ascending by `to_minutes` of the start time
(The Python `list.sort` is a stable merge sort, as is `List.mergeSort`). -/
def getCampaignEventsByRange (events : EventMap) (camp : Campaign)
    (range_type : TimeRangeType) (anchor : WorldClockTime) : List QuestEvent :=
  let startM := anchor.day * 24 * 60
  let endM := startM + rangeMinutes range_type
  let collected :=
    (camp.quest_event_ids.filterMap (lookupEvent events)).filter (inWindow startM endM)
  collected.mergeSort
    (fun a b => decide (a.start_time.to_minutes ≤ b.start_time.to_minutes))

/-- The time string printed for one event by `view_timeline`, chosen by
the time-display preference of the viewer. -/
def formatWithPref (pref : TimeDisplayPreference)
    (world_str local_str realm_name : String) : String :=
  match pref with
  | .WORLD => world_str
  | .LOCAL => local_str ++ " (" ++ realm_name ++ ")"
  | .BOTH => world_str ++ " | " ++ local_str ++ " (" ++ realm_name ++ ")"

/-- The display formatting of one event inside `view_timeline` (lines
949-960): a dangling `realm_id` makes `realm_name` fall back to the raw
id and `local_str` fall back to the world string; with a resolved realm
the local string goes through `to_local`, whose `ValueError` propagates
(computed before the preference branch, exactly as in the source). -/
def formatEventTime (realms : RealmMap) (pref : TimeDisplayPreference)
    (e : QuestEvent) : Except String String := do
  let realm? := lookupRealm realms e.realm_id
  let realm_name := match realm? with
    | some r => r.name
    | none => e.realm_id
  let world_str := e.start_time.render
  let local_str ← match realm? with
    | some r => (r.time_rule.to_local e.start_time).map WorldClockTime.render
    | none => pure world_str
  pure (formatWithPref pref world_str local_str realm_name)

/-! ## JSON values

The persisted document.  Python dicts become ordered field lists; the
floats the codec copies verbatim become exact rationals. -/

inductive Json where
  | null
  | bool (b : Bool)
  | int (n : Int)
  | rat (q : Rat)
  | str (s : String)
  | arr (elems : List Json)
  | obj (fields : List (String × Json))

/-- Key lookup in a JSON object (`d[k]` / the hit case of `d.get(k)`). -/
def jGet : List (String × Json) → String → Option Json
  | [], _ => none
  | (k, v) :: rest, key => if k = key then some v else jGet rest key

/-- Models `d.get(k, dflt)`. -/
def jGetD (d : List (String × Json)) (key : String) (dflt : Json) : Json :=
  (jGet d key).getD dflt

def Json.asObj? : Json → Option (List (String × Json))
  | .obj fields => some fields
  | _ => none

def Json.asStr? : Json → Option String
  | .str s => some s
  | _ => none

def Json.asInt? : Json → Option Int
  | .int n => some n
  | _ => none

def Json.asRat? : Json → Option Rat
  | .rat q => some q
  | _ => none

def Json.asArr? : Json → Option (List Json)
  | .arr elems => some elems
  | _ => none

/-- Python truthiness of a JSON-shaped value (`bool(x)` and bare `if x:`
tests): `None`, `False`, zero, and empty strings/lists/dicts are falsy. -/
def Json.truthy : Json → Bool
  | .null => false
  | .bool b => b
  | .int n => n != 0
  | .rat q => q != 0
  | .str s => s != ""
  | .arr elems => !elems.isEmpty
  | .obj fields => !fields.isEmpty

/-! ## The entity store (GuildQuestApp.__init__, mainold.py lines 285-292) -/

structure Store where
  users : List (String × User)
  realms : RealmMap
  campaigns : List (String × Campaign)
  events : EventMap
  characters : CharMap
  id_counters : List (String × Int)
  current_user : Option String
deriving DecidableEq

/-- The store of a freshly constructed `GuildQuestApp`. -/
def initStore : Store :=
  { users := [], realms := [], campaigns := [], events := [], characters := []
    id_counters := [("realm", 1), ("campaign", 1), ("event", 1), ("char", 1)]
    current_user := none }

/-- Key lookup in the users map (`u in self.users` / `self.users[u]`). -/
def lookupUser : List (String × User) → String → Option User
  | [], _ => none
  | (k, v) :: rest, name => if k = name then some v else lookupUser rest name

/-! ## Serialization (save side, mainold.py lines 301-313 and 350-445)

`asdict` walks dataclass fields in declaration order, so each encoder
lists the keys of the object in that order.  A `(str, Enum)` member fed
directly to `json.dump` serializes as its underlying string value (the
member IS that string), which is how `time_display` is written; the two
places that instead call `str(...)` on a `PermissionLevel` member write
the `"PermissionLevel.NAME"` form (see `PermissionLevel.pyStr`). -/

def encodeWCT (t : WorldClockTime) : Json :=
  .obj [("day", .int t.day), ("hour", .int t.hour), ("minute", .int t.minute)]

/-- Models `asdict(e.end_time) if e.end_time else None` (a dataclass instance
is always truthy, so only `None` maps to null). -/
def encodeOptWCT : Option WorldClockTime → Json
  | some t => encodeWCT t
  | none => .null

/-- A share as written by `_campaign_to_dict` / `_event_to_dict`: both
set `s["permission"] = str(s["permission"])`, producing the
class-qualified `str()` form rather than the enum value. -/
def encodeShare (s : Share) : Json :=
  .obj [("shared_with_user", .str s.shared_with_user),
        ("permission", .str s.permission.pyStr)]

def encodeItem (it : InventoryItem) : Json :=
  .obj [("name", .str it.name), ("description", .str it.description),
        ("type", .str it.type), ("rarity", .int it.rarity)]

def encodeChange (chg : InventoryChange) : Json :=
  .obj [("item", encodeItem chg.item),
        ("delta_qty", .int chg.delta_qty),
        ("target_char_id", match chg.target_char_id with
                           | some t => .str t
                           | none => .null)]

def encodeCharacter (c : Character) : Json :=
  .obj [("char_id", .str c.char_id), ("name", .str c.name),
        ("class_name", .str c.class_name), ("level", .int c.level),
        ("inventory", .arr (c.inventory.map encodeItem))]

def encodeUser (u : User) : Json :=
  .obj [("username", .str u.username),
        ("settings", .obj [("current_realm_id", .str u.settings.current_realm_id),
                           ("theme", .str u.settings.theme),
                           ("time_display", .str u.settings.time_display.value)]),
        ("campaign_ids", .arr (u.campaign_ids.map .str)),
        ("character_ids", .arr (u.character_ids.map .str))]

def encodeRealm (r : Realm) : Json :=
  .obj [("realm_id", .str r.realm_id), ("name", .str r.name),
        ("description", .str r.description), ("map_id", .int r.map_id),
        ("x_coord", .int r.x_coord), ("y_coord", .int r.y_coord),
        ("time_rule", .obj [("offset_minutes", .int r.time_rule.offset_minutes),
                            ("day_length_multiplier", .rat r.time_rule.day_length_multiplier)])]

def encodeCampaign (c : Campaign) : Json :=
  .obj [("campaign_id", .str c.campaign_id),
        ("owner_username", .str c.owner_username),
        ("name", .str c.name),
        ("visibility", .str c.visibility.value),
        ("archived", .bool c.archived),
        ("quest_event_ids", .arr (c.quest_event_ids.map .str)),
        ("shares", .arr (c.shares.map encodeShare))]

def encodeEvent (e : QuestEvent) : Json :=
  .obj [("event_id", .str e.event_id),
        ("name", .str e.name),
        ("start_time", encodeWCT e.start_time),
        ("end_time", encodeOptWCT e.end_time),
        ("realm_id", .str e.realm_id),
        ("participant_char_ids", .arr (e.participant_char_ids.map .str)),
        ("shares", .arr (e.shares.map encodeShare)),
        ("inventory_changes", .arr (e.inventory_changes.map encodeChange))]

/-- Models `GuildQuestApp.save`: the payload document, fields in the order the
source builds them. -/
def encodeStore (st : Store) : Json :=
  .obj [("id_counters", .obj (st.id_counters.map (fun kv => (kv.1, .int kv.2)))),
        ("current_user", match st.current_user with
                         | some u => .str u
                         | none => .null),
        ("users", .obj (st.users.map (fun kv => (kv.1, encodeUser kv.2)))),
        ("realms", .obj (st.realms.map (fun kv => (kv.1, encodeRealm kv.2)))),
        ("campaigns", .obj (st.campaigns.map (fun kv => (kv.1, encodeCampaign kv.2)))),
        ("events", .obj (st.events.map (fun kv => (kv.1, encodeEvent kv.2)))),
        ("characters", .obj (st.characters.map (fun kv => (kv.1, encodeCharacter kv.2))))]

/-! ## Deserialization (load side, mainold.py lines 315-347 and 355-445)

Each decoder returns `none` where the Python code would raise while
parsing that entity (`KeyError` on a required key, `ValueError` from an
enum value lookup or `WorldClockTime.__post_init__`, `TypeError` from
`InventoryItem(**d)`).  Where the dynamically-typed source would accept
a wrong-shaped value silently and only fail at a later use (e.g. a
non-integer inside `id_counters`), the typed decoders require the
documented shape up front; the round-trip and load theorems below only
exercise inputs where the two agree. -/

def decodeStrList (j : Json) : Option (List String) := do
  let elems ← j.asArr?
  elems.mapM Json.asStr?

/-- Models `WorldClockTime(st["day"], st["hour"], st["minute"])`: required keys
plus the `__post_init__` validation. -/
def decodeWCT (j : Json) : Option WorldClockTime := do
  let fields ← j.asObj?
  let day ← (← jGet fields "day").asInt?
  let hour ← (← jGet fields "hour").asInt?
  let minute ← (← jGet fields "minute").asInt?
  (WorldClockTime.mk? day hour minute).toOption

/-- Models the share decode `Share(shared_with_user=..., permission=PermissionLevel(...))`. -/
def decodeShare (j : Json) : Option Share := do
  let fields ← j.asObj?
  let u ← (← jGet fields "shared_with_user").asStr?
  let p ← (← jGet fields "permission").asStr?
  let permission ← PermissionLevel.fromValue p
  pure ⟨u, permission⟩

/-- Models `InventoryItem(**d)`: unexpected keyword arguments raise
`TypeError`, `name` is required, the other fields take their dataclass
defaults when absent. -/
def decodeItemKw (j : Json) : Option InventoryItem := do
  let fields ← j.asObj?
  if fields.all (fun kv =>
      kv.1 == "name" || kv.1 == "description" || kv.1 == "type" || kv.1 == "rarity") then
    let name ← (← jGet fields "name").asStr?
    let description ← (jGetD fields "description" (.str "")).asStr?
    let type ← (jGetD fields "type" (.str "misc")).asStr?
    let rarity ← (jGetD fields "rarity" (.int 0)).asInt?
    pure ⟨name, description, type, rarity⟩
  else none

/-- The user-decoding body of the `load` loop (lines 327-338); the
`username` comes from the mapping key, not from the stored field. -/
def decodeUser (username : String) (j : Json) : Option User := do
  let ud ← j.asObj?
  let sd ← (← jGet ud "settings").asObj?
  let current_realm_id ← (← jGet sd "current_realm_id").asStr?
  let theme ← (jGetD sd "theme" (.str "classic")).asStr?
  let tag ← (jGetD sd "time_display" (.str "WORLD")).asStr?
  let time_display ← TimeDisplayPreference.fromValue tag
  let campaign_ids ← decodeStrList (jGetD ud "campaign_ids" (.arr []))
  let character_ids ← decodeStrList (jGetD ud "character_ids" (.arr []))
  pure ⟨username, ⟨current_realm_id, theme, time_display⟩, campaign_ids, character_ids⟩

/-- Models `GuildQuestApp._dict_to_realm`. -/
def decodeRealm (j : Json) : Option Realm := do
  let d ← j.asObj?
  let tr ← (jGetD d "time_rule" (.obj [])).asObj?
  let offset_minutes ← (jGetD tr "offset_minutes" (.int 0)).asInt?
  let day_length_multiplier ← (jGetD tr "day_length_multiplier" (.rat 1)).asRat?
  let realm_id ← (← jGet d "realm_id").asStr?
  let name ← (← jGet d "name").asStr?
  let description ← (jGetD d "description" (.str "")).asStr?
  let map_id ← (jGetD d "map_id" (.int 0)).asInt?
  let x_coord ← (jGetD d "x_coord" (.int 0)).asInt?
  let y_coord ← (jGetD d "y_coord" (.int 0)).asInt?
  pure ⟨realm_id, name, description, map_id, x_coord, y_coord,
        ⟨offset_minutes, day_length_multiplier⟩⟩

/-- Models `GuildQuestApp._dict_to_campaign`.  `archived=bool(...)` is Python
truthiness of whatever is stored; `visibility` goes through the enum
value lookup and can raise. -/
def decodeCampaign (j : Json) : Option Campaign := do
  let d ← j.asObj?
  let shares ← (jGetD d "shares" (.arr [])).asArr?
  let shares ← shares.mapM decodeShare
  let campaign_id ← (← jGet d "campaign_id").asStr?
  let owner_username ← (← jGet d "owner_username").asStr?
  let name ← (← jGet d "name").asStr?
  let vtag ← (jGetD d "visibility" (.str "PRIVATE")).asStr?
  let visibility ← Visibility.fromValue vtag
  let archived := (jGetD d "archived" (.bool false)).truthy
  let quest_event_ids ← decodeStrList (jGetD d "quest_event_ids" (.arr []))
  pure ⟨campaign_id, owner_username, name, visibility, archived, quest_event_ids, shares⟩

/-- Models `GuildQuestApp._dict_to_event`.  `end_time` uses a bare truthiness
test (`if et`), so null (and any falsy value) means "no end time". -/
def decodeEvent (j : Json) : Option QuestEvent := do
  let d ← j.asObj?
  let start_time ← decodeWCT (← jGet d "start_time")
  let et := jGetD d "end_time" .null
  let end_time ← if et.truthy then some <$> decodeWCT et else pure none
  let shares ← (jGetD d "shares" (.arr [])).asArr?
  let shares ← shares.mapM decodeShare
  let chgs ← (jGetD d "inventory_changes" (.arr [])).asArr?
  let inventory_changes ← chgs.mapM (fun chg => do
    let cd ← chg.asObj?
    let item ← decodeItemKw (← jGet cd "item")
    let delta_qty ← (← jGet cd "delta_qty").asInt?
    let target_char_id ← match jGetD cd "target_char_id" .null with
      | .null => some none
      | .str t => some (some t)
      | _ => none
    pure (⟨item, delta_qty, target_char_id⟩ : InventoryChange))
  let event_id ← (← jGet d "event_id").asStr?
  let name ← (← jGet d "name").asStr?
  let realm_id ← (← jGet d "realm_id").asStr?
  let participant_char_ids ← decodeStrList (jGetD d "participant_char_ids" (.arr []))
  pure ⟨event_id, name, start_time, end_time, realm_id, participant_char_ids,
        shares, inventory_changes⟩

/-- Models `GuildQuestApp._dict_to_character`. -/
def decodeCharacter (j : Json) : Option Character := do
  let d ← j.asObj?
  let inv ← (jGetD d "inventory" (.arr [])).asArr?
  let inventory ← inv.mapM decodeItemKw
  let char_id ← (← jGet d "char_id").asStr?
  let name ← (← jGet d "name").asStr?
  let class_name ← (← jGet d "class_name").asStr?
  let level ← (jGetD d "level" (.int 1)).asInt?
  pure ⟨char_id, name, class_name, level, inventory⟩

/-- Models `payload.get("id_counters", self._id_counters)`: every stored
counter value must be an integer. -/
def decodeCounters (j : Json) : Option (List (String × Int)) := do
  let fields ← j.asObj?
  fields.mapM (fun kv => (kv.2.asInt?).map (fun n => (kv.1, n)))

/-- A whole-mapping decode used for the dict comprehensions of `load`
(realms, campaigns, events, characters): the comprehension is evaluated
completely before the field is assigned, so a failure anywhere leaves
the old field value. -/
def decodeMapWith {α : Type} (dec : Json → Option α) (j : Json) :
    Option (List (String × α)) := do
  let entries ← j.asObj?
  entries.mapM (fun kv => (dec kv.2).map (fun v => (kv.1, v)))

/-- Models `payload.get("current_user", None)`: absent or null is `None`. -/
def decodeCurrentUser : Option Json → Option (Option String)
  | none => some none
  | some .null => some none
  | some (.str s) => some (some s)
  | some _ => none

/-! ## load (mainold.py lines 315-347)

`load` assigns the store fields one by one, so an exception raised while
parsing a section leaves every earlier assignment in place; the result
type `Except Store Store` carries the store as it stands when the
exception propagates (`.error`) or when `load` returns (`.ok`).  The
users map is cleared and then filled entry by entry inside a loop, so a
failure there keeps the entries added so far; the other four entity
maps are built by dict comprehensions that are evaluated completely
before assignment, so a failure there keeps the old mapping. -/

def loadUsersLoop (st : Store) : List (String × Json) → Except Store Store
  | [] => .ok st
  | (username, ud) :: rest =>
      match decodeUser username ud with
      | none => .error st
      | some u => loadUsersLoop { st with users := st.users ++ [(username, u)] } rest

/-- Assignment `self._id_counters = payload.get("id_counters", self._id_counters)`
(line 323): keep the old counters when the key is absent. -/
def stageIdCounters (p : List (String × Json)) (st : Store) : Except Store Store :=
  match (match jGet p "id_counters" with
         | none => some st.id_counters
         | some jj => decodeCounters jj) with
  | none => .error st
  | some idc => .ok { st with id_counters := idc }

/-- Assignment `self.current_user = payload.get("current_user", None)` (line 324). -/
def stageCurrentUser (p : List (String × Json)) (st : Store) : Except Store Store :=
  match decodeCurrentUser (jGet p "current_user") with
  | none => .error st
  | some cu => .ok { st with current_user := cu }

/-- Assignment `self.users = ` empty dict followed by the per-entry loop (lines 326-338):
the map is cleared first, and a failure mid-loop keeps the entries added
so far. -/
def stageUsers (p : List (String × Json)) (st : Store) : Except Store Store :=
  match (jGetD p "users" (.obj [])).asObj? with
  | none => .error { st with users := [] }
  | some uentries => loadUsersLoop { st with users := [] } uentries

/-- Assignment `self.realms` by dict comprehension (line 340): evaluated fully
before assignment, so a failure keeps the old mapping. -/
def stageRealms (p : List (String × Json)) (st : Store) : Except Store Store :=
  match decodeMapWith decodeRealm (jGetD p "realms" (.obj [])) with
  | none => .error st
  | some realms => .ok { st with realms := realms }

/-- Assignment `self.campaigns` by dict comprehension (line 341). -/
def stageCampaigns (p : List (String × Json)) (st : Store) : Except Store Store :=
  match decodeMapWith decodeCampaign (jGetD p "campaigns" (.obj [])) with
  | none => .error st
  | some campaigns => .ok { st with campaigns := campaigns }

/-- Assignment `self.events` by dict comprehension (line 342). -/
def stageEvents (p : List (String × Json)) (st : Store) : Except Store Store :=
  match decodeMapWith decodeEvent (jGetD p "events" (.obj [])) with
  | none => .error st
  | some events => .ok { st with events := events }

/-- Assignment `self.characters` by dict comprehension (line 343). -/
def stageCharacters (p : List (String × Json)) (st : Store) : Except Store Store :=
  match decodeMapWith decodeCharacter (jGetD p "characters" (.obj [])) with
  | none => .error st
  | some characters => .ok { st with characters := characters }

/-- Fixup `if self.current_user and self.current_user not in self.users:
self.current_user = None` (lines 346-347); Python truthiness exempts an
empty-string `current_user` from the reset. -/
def stageFixup (st : Store) : Store :=
  { st with current_user :=
      match st.current_user with
      | some s => if s ≠ "" ∧ (lookupUser st.users s).isNone then none else some s
      | none => none }

/-- The body of `load` once the payload parsed as an object: the
section assignments in source order, each next section applied to the
store the previous one produced (`Except.bind` propagates the
exception with the store as it stood), and the `current_user` fixup on
success. -/
def loadParsed (p : List (String × Json)) (st : Store) : Except Store Store :=
  (((((((stageIdCounters p st).bind (stageCurrentUser p)).bind
    (stageUsers p)).bind (stageRealms p)).bind (stageCampaigns p)).bind
    (stageEvents p)).bind (stageCharacters p)).map stageFixup

def loadStore (st : Store) (payload : Json) : Except Store Store :=
  match payload.asObj? with
  | none => .error st
  | some p => loadParsed p st

/-- What the file read at the top of `load` produced: no file
(`FileNotFoundError`, caught), unparseable text (`json.JSONDecodeError`,
not caught), or a parsed document. -/
inductive FileRead where
  | missing
  | garbage
  | parsed (j : Json)

/-- Models `GuildQuestApp.load`: a missing file returns with the store
untouched; malformed JSON text raises before any assignment; a parsed
document is applied by `loadStore`. -/
def load (st : Store) (f : FileRead) : Except Store Store :=
  match f with
  | .missing => .ok st
  | .garbage => .error st
  | .parsed j => loadStore st j

/-! ## Derived notions used by the statements -/

/-- One call against a campaign share list. -/
inductive ShareOp where
  | share (username : String) (level : PermissionLevel)
  | unshare (username : String)

def applyShareOp (c : Campaign) : ShareOp → Campaign
  | .share u l => c.share_with u l
  | .unshare u => c.unshare_with u

def applyShareOps (c : Campaign) (ops : List ShareOp) : Campaign :=
  ops.foldl applyShareOp c

/-- The share-list invariant: at most one share per username (the
usernames are pairwise distinct) and the owner never appears. -/
def SharesInv (c : Campaign) : Prop :=
  (c.shares.map Share.shared_with_user).Nodup
    ∧ ∀ s ∈ c.shares, s.shared_with_user ≠ c.owner_username

/-- How many inventory slots hold an item with the given name. -/
def countMatching (inv : List InventoryItem) (nm : String) : Nat :=
  (inv.filter (fun it => it.name = nm)).length

/-- Modelled from the claim wording for comparison with the source: the
target set is the singleton of `target_char_id` whenever that field is
present (with no emptiness test), else the participant list. -/
def targetsClaimed (chg : InventoryChange) (participants : List String) :
    List String :=
  match chg.target_char_id with
  | some t => [t]
  | none => participants

/-- One inventory change applied with the claim target rule instead of
the source truthiness test; the per-character effect is unchanged. -/
def applyChangeClaimed (chars : CharMap) (participants : List String)
    (chg : InventoryChange) : CharMap :=
  (targetsClaimed chg participants).foldl
    (fun cs cid =>
      match lookupChar cs cid with
      | none => cs
      | some ch => setChar cs cid (applyChangeToChar chg ch))
    chars

/-! ## Concrete sample data for closed statements -/

def sampleTime : WorldClockTime := ⟨5, 9, 30⟩

def sampleItem : InventoryItem := ⟨"Potion", "heals", "consumable", 1⟩

def sampleChar : Character := ⟨"C1", "Hero", "Knight", 3, [sampleItem]⟩

def sampleUser : User := ⟨"alice", ⟨"R1", "classic", .WORLD⟩, ["P1"], ["C1"]⟩

def sampleRealm : Realm := ⟨"R1", "Earth", "Default realm", 1, 0, 0, ⟨0, 1⟩⟩

/-- An event with a null `end_time`, a participant and an inventory
change. -/
def sampleEvent : QuestEvent :=
  ⟨"E1", "Hunt", sampleTime, none, "R1", ["C1"], [], [⟨sampleItem, 2, none⟩]⟩

/-- A campaign with one share. -/
def sampleCampaign : Campaign :=
  ⟨"P1", "alice", "Quest", .PRIVATE, false, ["E1"], [⟨"bob", .VIEW_ONLY⟩]⟩

/-- A store holding one entity of each kind, the campaign carrying a
share and the event a null `end_time`. -/
def sampleStore : Store :=
  { users := [("alice", sampleUser)]
    realms := [("R1", sampleRealm)]
    campaigns := [("P1", sampleCampaign)]
    events := [("E1", sampleEvent)]
    characters := [("C1", sampleChar)]
    id_counters := [("realm", 2), ("campaign", 2), ("event", 2), ("char", 2)]
    current_user := some "alice" }

/-- A PUBLIC campaign granting bob a COLLABORATIVE share. -/
def pubCampaign : Campaign :=
  ⟨"P2", "alice", "Open", .PUBLIC, false, [], [⟨"bob", .COLLABORATIVE⟩]⟩

/-- A payload whose users section parses (it introduces carol) but whose
campaigns section fails on an unknown visibility tag. -/
def badCampaignPayload : Json :=
  .obj [("users", .obj [("carol",
            .obj [("settings", .obj [("current_realm_id", .str "R1")])])]),
        ("campaigns", .obj [("P9",
            .obj [("campaign_id", .str "P9"), ("owner_username", .str "carol"),
                  ("name", .str "X"), ("visibility", .str "BOGUS")])])]

/-- The user carol as the users section above decodes her. -/
def carolUser : User := ⟨"carol", ⟨"R1", "classic", .WORLD⟩, [], []⟩

/-- The store left behind when `load` raises inside the campaigns
section of `badCampaignPayload`, starting from `sampleStore`. -/
def mutatedStore : Store :=
  { sampleStore with
    users := [("carol", carolUser)]
    realms := []
    current_user := none }

/-- A payload recording an empty-string `current_user` with no users. -/
def emptyUserPayload : Json :=
  .obj [("current_user", .str ""), ("users", .obj [])]

/-- A character holding exactly two potions (and one sword). -/
def twoPotionChar : Character :=
  ⟨"C1", "Hero", "Knight", 3, [sampleItem, ⟨"Sword", "", "weapon", 2⟩, sampleItem]⟩

/-! # Theorems -/

/-! ## Time model lemmas -/

theorem plus_minutes_eq_error (t : WorldClockTime) (delta : Int)
    (h : t.to_minutes + delta < 0) :
    t.plus_minutes delta = .error "time cannot go negative" := by
  simp only [WorldClockTime.plus_minutes]
  rw [if_pos h]

theorem plus_minutes_eq_ok (t : WorldClockTime) (delta : Int)
    (h : 0 ≤ t.to_minutes + delta) :
    t.plus_minutes delta =
      .ok ⟨(t.to_minutes + delta) / 1440, ((t.to_minutes + delta) % 1440) / 60,
           ((t.to_minutes + delta) % 1440) % 60⟩ := by
  simp only [WorldClockTime.plus_minutes]
  rw [if_neg (by omega)]
  norm_num

theorem renorm_to_minutes (total : Int) :
    (⟨total / 1440, (total % 1440) / 60, (total % 1440) % 60⟩ :
        WorldClockTime).to_minutes = total := by
  simp only [WorldClockTime.to_minutes]
  omega

theorem renorm_valid (total : Int) (h : 0 ≤ total) :
    (⟨total / 1440, (total % 1440) / 60, (total % 1440) % 60⟩ :
        WorldClockTime).valid := by
  simp only [WorldClockTime.valid]
  refine ⟨by omega, by omega, by omega, by omega, by omega⟩

/-- C7: `WorldClockTime` construction fails with a validation error
exactly when a field is out of range (day below 0, hour outside 0..23,
minute outside 0..59) and otherwise returns the given fields;
`plus_minutes` fails exactly when `to_minutes t + delta` is negative and
otherwise returns a valid time renormalized from the total minute count,
whose `to_minutes` equals `to_minutes t + delta`. -/
theorem c7_time_validation (day hour minute : Int) (t : WorldClockTime)
    (delta : Int) :
    ((WorldClockTime.mk? day hour minute).isOk = true ↔
        (0 ≤ day ∧ 0 ≤ hour ∧ hour ≤ 23 ∧ 0 ≤ minute ∧ minute ≤ 59))
    ∧ (∀ u, WorldClockTime.mk? day hour minute = .ok u → u = ⟨day, hour, minute⟩)
    ∧ ((t.plus_minutes delta).isOk = true ↔ 0 ≤ t.to_minutes + delta)
    ∧ (∀ u, t.plus_minutes delta = .ok u →
        u.valid ∧ u.to_minutes = t.to_minutes + delta) := by
  refine ⟨?_, ?_, ?_, ?_⟩
  · simp only [WorldClockTime.mk?]
    split_ifs with h1 h2 h3 <;> simp [Except.isOk, Except.toBool] <;> omega
  · intro u hu
    simp only [WorldClockTime.mk?] at hu
    split_ifs at hu
    injection hu with hu
    exact hu.symm
  · rcases lt_or_le (t.to_minutes + delta) 0 with h | h
    · rw [plus_minutes_eq_error t delta h]
      simp [Except.isOk, Except.toBool]
      omega
    · rw [plus_minutes_eq_ok t delta h]
      simp [Except.isOk, Except.toBool]
      omega
  · intro u hu
    rcases lt_or_le (t.to_minutes + delta) 0 with h | h
    · rw [plus_minutes_eq_error t delta h] at hu
      exact absurd hu (by simp)
    · rw [plus_minutes_eq_ok t delta h] at hu
      injection hu with hu
      subst hu
      exact ⟨renorm_valid _ h, renorm_to_minutes _⟩

/-- Witness for C7 at a concrete input. -/
theorem c7_time_validation_witness :
    (⟨5, 11, 10⟩ : WorldClockTime).valid
      ∧ (⟨5, 11, 10⟩ : WorldClockTime).to_minutes
          = (⟨5, 9, 30⟩ : WorldClockTime).to_minutes + 100 :=
  (c7_time_validation 5 9 30 ⟨5, 9, 30⟩ 100).2.2.2 ⟨5, 11, 10⟩ (by
    rw [plus_minutes_eq_ok ⟨5, 9, 30⟩ 100 (by decide)]
    rfl)

/-- C8: `plus_minutes` is additive whenever all intermediate results
are non-negative: adding `d1` and then `d2` equals adding `d1 + d2`. -/
theorem c8_plus_minutes_additive (t : WorldClockTime) (d1 d2 : Int)
    (_ht : t.valid) (h1 : 0 ≤ t.to_minutes + d1)
    (h2 : 0 ≤ t.to_minutes + (d1 + d2)) :
    (t.plus_minutes d1).bind (fun u => u.plus_minutes d2)
      = t.plus_minutes (d1 + d2) := by
  rw [plus_minutes_eq_ok t d1 h1]
  have hmid :
      (⟨(t.to_minutes + d1) / 1440, ((t.to_minutes + d1) % 1440) / 60,
        ((t.to_minutes + d1) % 1440) % 60⟩ : WorldClockTime).to_minutes
        = t.to_minutes + d1 := renorm_to_minutes _
  show WorldClockTime.plus_minutes _ d2 = _
  rw [plus_minutes_eq_ok _ d2 (by rw [hmid]; omega),
      plus_minutes_eq_ok t (d1 + d2) h2, hmid]
  have : t.to_minutes + d1 + d2 = t.to_minutes + (d1 + d2) := by ring
  rw [this]

/-- Witness for C8 at a concrete input. -/
theorem c8_plus_minutes_additive_witness :
    ((⟨5, 9, 30⟩ : WorldClockTime).plus_minutes 100).bind
        (fun u => u.plus_minutes 40)
      = (⟨5, 9, 30⟩ : WorldClockTime).plus_minutes 140 :=
  c8_plus_minutes_additive ⟨5, 9, 30⟩ 100 40 (by decide) (by decide) (by decide)

/-! ## Share-list lemmas -/

theorem lookupShare_eq_none_iff (l : List Share) (u : String) :
    lookupShare l u = none ↔ ∀ s ∈ l, s.shared_with_user ≠ u := by
  induction l with
  | nil => simp [lookupShare]
  | cons s rest ih =>
    by_cases h : s.shared_with_user = u
    · simp [lookupShare, h]
    · simp [lookupShare, h, ih]

theorem upsertShare_users (l : List Share) (u : String) (p : PermissionLevel) :
    (upsertShare l u p).map Share.shared_with_user
      = if lookupShare l u = none
        then l.map Share.shared_with_user ++ [u]
        else l.map Share.shared_with_user := by
  induction l with
  | nil => simp [upsertShare, lookupShare]
  | cons s rest ih =>
    by_cases h : s.shared_with_user = u
    · simp [upsertShare, lookupShare, h]
    · by_cases h2 : lookupShare rest u = none <;>
        simp [upsertShare, lookupShare, h, h2, ih]

theorem mem_upsertShare (l : List Share) (u : String) (p : PermissionLevel)
    (s : Share) (hs : s ∈ upsertShare l u p) : s = ⟨u, p⟩ ∨ s ∈ l := by
  induction l with
  | nil => simpa [upsertShare] using hs
  | cons s2 rest ih =>
    by_cases h : s2.shared_with_user = u
    · simp only [upsertShare, if_pos h, List.mem_cons] at hs
      rcases hs with rfl | hs
      · exact .inl rfl
      · exact .inr (List.mem_cons_of_mem _ hs)
    · simp only [upsertShare, if_neg h, List.mem_cons] at hs
      rcases hs with rfl | hs
      · exact .inr (List.mem_cons_self _ _)
      · rcases ih hs with h3 | h3
        · exact .inl h3
        · exact .inr (List.mem_cons_of_mem _ h3)

theorem sharesInv_share_with (c : Campaign) (hInv : SharesInv c) (u : String)
    (p : PermissionLevel) : SharesInv (c.share_with u p) := by
  unfold Campaign.share_with
  by_cases h : u = c.owner_username
  · rw [if_pos h]; exact hInv
  · rw [if_neg h]
    refine ⟨?_, ?_⟩
    · show ((upsertShare c.shares u p).map Share.shared_with_user).Nodup
      rw [upsertShare_users]
      split_ifs with h2
      · rw [List.nodup_append]
        refine ⟨hInv.1, List.nodup_singleton u, ?_⟩
        intro x hx hx2
        rw [lookupShare_eq_none_iff] at h2
        rcases List.mem_map.mp hx with ⟨s, hs, rfl⟩
        simp only [List.mem_singleton] at hx2
        exact h2 s hs hx2
      · exact hInv.1
    · intro s hs
      rcases mem_upsertShare _ _ _ _ hs with rfl | hs2
      · exact h
      · exact hInv.2 s hs2

theorem sharesInv_unshare_with (c : Campaign) (hInv : SharesInv c)
    (u : String) : SharesInv (c.unshare_with u) := by
  refine ⟨?_, ?_⟩
  · exact ((List.filter_sublist _).map Share.shared_with_user).nodup hInv.1
  · intro s hs
    exact hInv.2 s (List.mem_of_mem_filter hs)

theorem applyShareOps_cons (c : Campaign) (op : ShareOp) (ops : List ShareOp) :
    applyShareOps c (op :: ops) = applyShareOps (applyShareOp c op) ops := rfl

theorem sharesInv_applyShareOps (c : Campaign) (ops : List ShareOp)
    (h : SharesInv c) : SharesInv (applyShareOps c ops) := by
  induction ops generalizing c with
  | nil => exact h
  | cons op rest ih =>
    rw [applyShareOps_cons]
    cases op with
    | share u p => exact ih _ (sharesInv_share_with c h u p)
    | unshare u => exact ih _ (sharesInv_unshare_with c h u)

theorem owner_share_with (c : Campaign) (u : String) (p : PermissionLevel) :
    (c.share_with u p).owner_username = c.owner_username := by
  unfold Campaign.share_with
  split_ifs <;> rfl

theorem owner_applyShareOps (c : Campaign) (ops : List ShareOp) :
    (applyShareOps c ops).owner_username = c.owner_username := by
  induction ops generalizing c with
  | nil => rfl
  | cons op rest ih =>
    rw [applyShareOps_cons]
    cases op with
    | share u p => rw [ih]; exact owner_share_with c u p
    | unshare u => rw [ih]; rfl

theorem filter_eq_nil_of_not_user (l : List Share) (u : String)
    (h : ∀ s ∈ l, s.shared_with_user ≠ u) :
    l.filter (fun s => s.shared_with_user = u) = [] := by
  induction l with
  | nil => rfl
  | cons s rest ih =>
    have h1 := h s (List.mem_cons_self _ _)
    simp only [List.filter_cons, decide_eq_true_eq]
    rw [if_neg h1]
    exact ih (fun s2 hs2 => h s2 (List.mem_cons_of_mem _ hs2))

theorem filter_upsert_self (l : List Share) (u : String) (p : PermissionLevel)
    (h : (l.map Share.shared_with_user).Nodup) :
    (upsertShare l u p).filter (fun s => s.shared_with_user = u) = [⟨u, p⟩] := by
  induction l with
  | nil => simp [upsertShare]
  | cons s rest ih =>
    rw [List.map_cons, List.nodup_cons] at h
    by_cases hs : s.shared_with_user = u
    · simp only [upsertShare, if_pos hs, List.filter_cons, decide_eq_true_eq]
      rw [if_pos trivial, filter_eq_nil_of_not_user rest u]
      intro s2 hs2 h2
      exact h.1 (hs ▸ h2 ▸ List.mem_map_of_mem Share.shared_with_user hs2)
    · simp only [upsertShare, if_neg hs, List.filter_cons, decide_eq_true_eq,
        if_neg hs]
      exact ih h.2

/-- C2: the resolved campaign permission follows the four-step
precedence with first match winning: the owner gets COLLABORATIVE; a
non-owner on a PUBLIC campaign gets VIEW_ONLY whatever the share list
holds; otherwise the level bound to the user in the share list if
present, else no access (`none`, not an error); and `can_view` holds iff
the result is not `none` while `can_edit` holds iff it is
COLLABORATIVE. -/
theorem c2_campaign_permission (c : Campaign) (u : String) :
    (u = c.owner_username → c.get_permission u = some .COLLABORATIVE)
    ∧ (u ≠ c.owner_username → c.visibility = .PUBLIC →
        ∀ ss : List Share,
          Campaign.get_permission { c with shares := ss } u = some .VIEW_ONLY)
    ∧ (u ≠ c.owner_username → c.visibility ≠ .PUBLIC →
        c.get_permission u = lookupShare c.shares u)
    ∧ (u ≠ c.owner_username → c.visibility ≠ .PUBLIC →
        (∀ s ∈ c.shares, s.shared_with_user ≠ u) → c.get_permission u = none)
    ∧ (c.can_view u = true ↔ c.get_permission u ≠ none)
    ∧ (c.can_edit u = true ↔ c.get_permission u = some .COLLABORATIVE) := by
  refine ⟨?_, ?_, ?_, ?_, ?_, ?_⟩
  · intro h
    simp [Campaign.get_permission, h]
  · intro hne hvis ss
    simp [Campaign.get_permission, hne, hvis]
  · intro hne hvis
    simp [Campaign.get_permission, hne, hvis]
  · intro hne hvis habs
    simp [Campaign.get_permission, hne, hvis,
      (lookupShare_eq_none_iff c.shares u).mpr habs]
  · rw [Campaign.can_view, Option.isSome_iff_ne_none]
  · rw [Campaign.can_edit, decide_eq_true_eq]

/-- Witness for C2: on a PUBLIC campaign bob resolves VIEW_ONLY even
with a COLLABORATIVE share in the list. -/
theorem c2_campaign_permission_witness :
    Campaign.get_permission
        { pubCampaign with shares := [⟨"bob", .COLLABORATIVE⟩] } "bob"
      = some .VIEW_ONLY :=
  (c2_campaign_permission pubCampaign "bob").2.1 (by decide) rfl
    [⟨"bob", .COLLABORATIVE⟩]

/-- C6: starting from a campaign whose share list has at most one entry
per username and never the owner, any sequence of `share_with` and
`unshare_with` calls preserves that invariant; `share_with` on the owner
is a no-op; re-sharing the same username twice leaves exactly one share
for it, at the last level; and `unshare_with` of a username with no
share is a no-op rather than an error. -/
theorem c6_share_invariants (c : Campaign) (ops : List ShareOp)
    (h : SharesInv c) :
    SharesInv (applyShareOps c ops)
    ∧ (∀ p, (applyShareOps c ops).share_with c.owner_username p
        = applyShareOps c ops)
    ∧ (∀ u p1 p2, u ≠ c.owner_username →
        (((applyShareOps c ops).share_with u p1).share_with u p2).shares.filter
            (fun s => s.shared_with_user = u)
          = [⟨u, p2⟩])
    ∧ (∀ u, lookupShare (applyShareOps c ops).shares u = none →
        (applyShareOps c ops).unshare_with u = applyShareOps c ops) := by
  have hInv := sharesInv_applyShareOps c ops h
  have hOwner := owner_applyShareOps c ops
  refine ⟨hInv, ?_, ?_, ?_⟩
  · intro p
    unfold Campaign.share_with
    rw [if_pos hOwner.symm]
  · intro u p1 p2 hne
    have hne2 : u ≠ (applyShareOps c ops).owner_username := hOwner ▸ hne
    have h1 : (applyShareOps c ops).share_with u p1
        = { applyShareOps c ops with
            shares := upsertShare (applyShareOps c ops).shares u p1 } := by
      unfold Campaign.share_with
      rw [if_neg hne2]
    have hInv1 := sharesInv_share_with (applyShareOps c ops) hInv u p1
    rw [h1] at hInv1 ⊢
    unfold Campaign.share_with
    rw [if_neg hne2]
    exact filter_upsert_self _ u p2 hInv1.1
  · intro u hu
    unfold Campaign.unshare_with
    rw [List.filter_eq_self.mpr, ]
    intro s hs
    rw [lookupShare_eq_none_iff] at hu
    simpa using hu s hs

/-- Witness for C6: a concrete upsert-twice run leaves one share at the
second level. -/
theorem c6_share_invariants_witness :
    (((applyShareOps sampleCampaign [.share "bob" .COLLABORATIVE]).share_with
          "carol" .VIEW_ONLY).share_with "carol" .COLLABORATIVE).shares.filter
        (fun s => s.shared_with_user = "carol")
      = [⟨"carol", .COLLABORATIVE⟩] :=
  (c6_share_invariants sampleCampaign [.share "bob" .COLLABORATIVE]
      ⟨by decide, by decide⟩).2.2.1 "carol" .VIEW_ONLY .COLLABORATIVE (by decide)

/-- C9: in timeline display formatting, an event whose `realm_id` does
not resolve to an existing realm formats without error under every
time-display preference, with the local-time string degraded to the
world-time string (and the realm name shown as the raw id). -/
theorem c9_dangling_realm_degrades (realms : RealmMap)
    (pref : TimeDisplayPreference) (e : QuestEvent)
    (h : lookupRealm realms e.realm_id = none) :
    formatEventTime realms pref e
      = .ok (formatWithPref pref e.start_time.render e.start_time.render
          e.realm_id) := by
  simp only [formatEventTime, h]
  rfl

/-- Witness for C9 against the empty realm map. -/
theorem c9_dangling_realm_degrades_witness :
    formatEventTime [] .LOCAL sampleEvent
      = .ok (formatWithPref .LOCAL sampleEvent.start_time.render
          sampleEvent.start_time.render sampleEvent.realm_id) :=
  c9_dangling_realm_degrades [] .LOCAL sampleEvent rfl

/-! ## Timeline query lemmas -/

theorem getCampaignEventsByRange_eq (events : EventMap) (camp : Campaign)
    (range_type : TimeRangeType) (anchor : WorldClockTime) :
    getCampaignEventsByRange events camp range_type anchor
      = ((camp.quest_event_ids.filterMap (lookupEvent events)).filter
            (inWindow (anchor.day * 1440)
              (anchor.day * 1440 + rangeMinutes range_type))).mergeSort
          (fun a b => decide (a.start_time.to_minutes ≤ b.start_time.to_minutes)) := by
  simp only [getCampaignEventsByRange]
  have hw : anchor.day * 24 * 60 = anchor.day * 1440 := by ring
  rw [hw]

/-- C4: the timeline query returns exactly the campaign events whose
start time lies in the half-open window `[anchor.day * 1440,
anchor.day * 1440 + length)` (hour and minute of the anchor are
discarded), with the window length 1440, 7*1440, 30*1440 or 365*1440
minutes by range kind; the result is a permutation of the filtered
collection, sorted ascending by `to_minutes` of the start time, and
window membership never consults the end time of the event (it depends only
on the start time). -/
theorem c4_timeline_window (events : EventMap) (camp : Campaign)
    (range_type : TimeRangeType) (anchor : WorldClockTime) :
    (getCampaignEventsByRange events camp range_type anchor).Pairwise
        (fun a b => a.start_time.to_minutes ≤ b.start_time.to_minutes)
    ∧ (getCampaignEventsByRange events camp range_type anchor).Perm
        ((camp.quest_event_ids.filterMap (lookupEvent events)).filter
          (inWindow (anchor.day * 1440)
            (anchor.day * 1440 + rangeMinutes range_type)))
    ∧ (∀ e ∈ getCampaignEventsByRange events camp range_type anchor,
        anchor.day * 1440 ≤ e.start_time.to_minutes
          ∧ e.start_time.to_minutes < anchor.day * 1440 + rangeMinutes range_type)
    ∧ (rangeMinutes .DAY = 1440 ∧ rangeMinutes .WEEK = 7 * 1440
        ∧ rangeMinutes .MONTH = 30 * 1440 ∧ rangeMinutes .YEAR = 365 * 1440)
    ∧ (∀ a b : QuestEvent, a.start_time = b.start_time →
        ∀ s2 e2 : Int, inWindow s2 e2 a = inWindow s2 e2 b) := by
  have hperm := List.mergeSort_perm
    ((camp.quest_event_ids.filterMap (lookupEvent events)).filter
      (inWindow (anchor.day * 1440) (anchor.day * 1440 + rangeMinutes range_type)))
    (fun a b => decide (a.start_time.to_minutes ≤ b.start_time.to_minutes))
  refine ⟨?_, ?_, ?_, ?_, ?_⟩
  · rw [getCampaignEventsByRange_eq]
    have hs := @List.sorted_mergeSort QuestEvent
      (fun a b : QuestEvent =>
        decide (a.start_time.to_minutes ≤ b.start_time.to_minutes))
      (fun a b c hab hbc => by
        simp only [decide_eq_true_eq] at hab hbc ⊢
        omega)
      (fun a b => by
        simp only [Bool.or_eq_true, decide_eq_true_eq]
        omega)
      ((camp.quest_event_ids.filterMap (lookupEvent events)).filter
        (inWindow (anchor.day * 1440) (anchor.day * 1440 + rangeMinutes range_type)))
    exact hs.imp (fun h => of_decide_eq_true h)
  · rw [getCampaignEventsByRange_eq]
    exact hperm
  · intro e he
    rw [getCampaignEventsByRange_eq] at he
    have he2 := hperm.mem_iff.mp he
    have he3 := (List.mem_filter.mp he2).2
    simp only [inWindow, Bool.and_eq_true, decide_eq_true_eq] at he3
    exact he3
  · exact ⟨by decide, by decide, by decide, by decide⟩
  · intro a b hab s2 e2
    simp [inWindow, hab]

/-- Witness for C4: the sample event at day 5, 09:30 lies inside the DAY
window anchored at day 5 (whatever the anchor hour). -/
theorem c4_timeline_window_witness :
    (⟨5, 7, 45⟩ : WorldClockTime).day * 1440 ≤ sampleEvent.start_time.to_minutes
      ∧ sampleEvent.start_time.to_minutes
          < (⟨5, 7, 45⟩ : WorldClockTime).day * 1440 + rangeMinutes .DAY := by
  have h := c4_timeline_window sampleStore.events sampleCampaign .DAY ⟨5, 7, 45⟩
  exact h.2.2.1 sampleEvent (h.2.1.mem_iff.mpr (by decide))

/-! ## Inventory-application lemmas -/

theorem lookupChar_setChar_self (cs : CharMap) (cid : String) (ch : Character) :
    lookupChar (setChar cs cid ch) cid = (lookupChar cs cid).map (fun _ => ch) := by
  induction cs with
  | nil => rfl
  | cons kv rest ih =>
    rcases kv with ⟨k, v⟩
    by_cases h : k = cid
    · simp [setChar, lookupChar, h]
    · simp [setChar, lookupChar, h, ih]

theorem lookupChar_setChar_ne (cs : CharMap) (cid cid2 : String)
    (ch : Character) (h : cid2 ≠ cid) :
    lookupChar (setChar cs cid ch) cid2 = lookupChar cs cid2 := by
  induction cs with
  | nil => rfl
  | cons kv rest ih =>
    rcases kv with ⟨k, v⟩
    by_cases h1 : k = cid
    · simp only [setChar, lookupChar, if_pos h1]
      have h2 : k ≠ cid2 := by
        rw [h1]
        exact fun hk => h hk.symm
      rw [if_neg h2, if_neg h2]
    · simp only [setChar, lookupChar, if_neg h1]
      by_cases h2 : k = cid2
      · rw [if_pos h2, if_pos h2]
      · rw [if_neg h2, if_neg h2, ih]

theorem applyChange_foldl_lookup (chg : InventoryChange) (ts : List String)
    (hnd : ts.Nodup) (cs : CharMap) (cid : String) :
    lookupChar (ts.foldl (fun cs2 c =>
        match lookupChar cs2 c with
        | none => cs2
        | some ch => setChar cs2 c (applyChangeToChar chg ch)) cs) cid
      = if cid ∈ ts
        then (lookupChar cs cid).map (applyChangeToChar chg)
        else lookupChar cs cid := by
  induction ts generalizing cs with
  | nil => simp
  | cons t rest ih =>
    rw [List.foldl_cons]
    rw [List.nodup_cons] at hnd
    by_cases hc : cid = t
    · subst hc
      rw [ih hnd.2, if_neg hnd.1, if_pos (List.mem_cons_self _ _)]
      cases hl : lookupChar cs cid with
      | none => simp [hl]
      | some ch => simp [hl, lookupChar_setChar_self]
    · have hstep : lookupChar (match lookupChar cs t with
          | none => cs
          | some ch => setChar cs t (applyChangeToChar chg ch)) cid
          = lookupChar cs cid := by
        cases hl : lookupChar cs t with
        | none => rfl
        | some ch => exact lookupChar_setChar_ne cs t cid _ hc
      rw [ih hnd.2, hstep]
      by_cases hm : cid ∈ rest <;>
        simp [List.mem_cons, hc, hm]

theorem countMatching_cons (it : InventoryItem) (rest : List InventoryItem)
    (nm : String) :
    countMatching (it :: rest) nm
      = (if it.name = nm then 1 else 0) + countMatching rest nm := by
  by_cases h : it.name = nm <;> simp [countMatching, List.filter_cons, h] <;> omega

theorem countMatching_removeByName (inv : List InventoryItem) (nm : String)
    (q : Nat) :
    countMatching (removeByName inv nm q) nm = countMatching inv nm - q := by
  induction inv generalizing q with
  | nil => cases q <;> simp [removeByName, countMatching]
  | cons it rest ih =>
    cases q with
    | zero => simp [removeByName]
    | succ q2 =>
      by_cases h : it.name = nm
      · rw [show removeByName (it :: rest) nm (q2 + 1) = removeByName rest nm q2
            from by simp [removeByName, h]]
        rw [ih, countMatching_cons, if_pos h]
        omega
      · rw [show removeByName (it :: rest) nm (q2 + 1)
              = it :: removeByName rest nm (q2 + 1)
            from by simp [removeByName, h]]
        rw [countMatching_cons, if_neg h, countMatching_cons, if_neg h, ih]
        omega

theorem filter_ne_removeByName (inv : List InventoryItem) (nm : String)
    (q : Nat) :
    (removeByName inv nm q).filter (fun it => it.name ≠ nm)
      = inv.filter (fun it => it.name ≠ nm) := by
  induction inv generalizing q with
  | nil => cases q <;> rfl
  | cons it rest ih =>
    cases q with
    | zero => rfl
    | succ q2 =>
      by_cases h : it.name = nm
      · rw [show removeByName (it :: rest) nm (q2 + 1) = removeByName rest nm q2
            from by simp [removeByName, h]]
        rw [ih]
        simp [List.filter_cons, h]
      · rw [show removeByName (it :: rest) nm (q2 + 1)
              = it :: removeByName rest nm (q2 + 1)
            from by simp [removeByName, h]]
        rw [List.filter_cons, List.filter_cons, ih]

/-- Counterexample to C5 as stated: with a present-but-empty
`target_char_id` the source truthiness test (`if chg.target_char_id:`)
falls back to the participant list, while the claim "singleton when
the field is present" rule would target only the unknown id `""` and
change nothing. -/
theorem c5_counterexample :
    applyChange [("C1", sampleChar)] ["C1"] ⟨sampleItem, 1, some ""⟩
      ≠ applyChangeClaimed [("C1", sampleChar)] ["C1"] ⟨sampleItem, 1, some ""⟩ := by
  decide

/-- C5 (amended): applying one inventory change targets the singleton
`target_char_id` when that field is present and non-empty, and the
full participant list of the event when it is absent or the empty string
(Python truthiness); each present target character is updated by the
change while unknown character ids are silently skipped and every other
entry is untouched; a positive delta appends the item that many times as
independent slots; a negative delta removes up to `|delta|` items
matching by name (removing more than exist is not an error — the
matching count drops to zero and non-matching items survive). -/
theorem c5_inventory_application (chars : CharMap) (parts : List String)
    (chg : InventoryChange) (ch : Character) (hnd : parts.Nodup) :
    (∀ t, chg.target_char_id = some t → t ≠ "" → chg.targets parts = [t])
    ∧ ((chg.target_char_id = none ∨ chg.target_char_id = some "") →
        chg.targets parts = parts)
    ∧ (∀ cid, lookupChar (applyChange chars parts chg) cid
        = if cid ∈ chg.targets parts
          then (lookupChar chars cid).map (applyChangeToChar chg)
          else lookupChar chars cid)
    ∧ (0 < chg.delta_qty →
        (applyChangeToChar chg ch).inventory
          = ch.inventory ++ List.replicate chg.delta_qty.toNat chg.item)
    ∧ (chg.delta_qty < 0 →
        countMatching (applyChangeToChar chg ch).inventory chg.item.name
            = countMatching ch.inventory chg.item.name - (-chg.delta_qty).toNat
        ∧ (applyChangeToChar chg ch).inventory.filter
              (fun it => it.name ≠ chg.item.name)
            = ch.inventory.filter (fun it => it.name ≠ chg.item.name)) := by
  have hndT : (chg.targets parts).Nodup := by
    unfold InventoryChange.targets
    cases chg.target_char_id with
    | none => exact hnd
    | some t =>
      by_cases ht : t = ""
      · simpa [ht] using hnd
      · simp [ht]
  refine ⟨?_, ?_, ?_, ?_, ?_⟩
  · intro t hsome hne
    unfold InventoryChange.targets
    rw [hsome]
    simp [hne]
  · intro hcase
    unfold InventoryChange.targets
    rcases hcase with h | h <;> rw [h] <;> simp
  · intro cid
    unfold applyChange
    exact applyChange_foldl_lookup chg (chg.targets parts) hndT chars cid
  · intro hpos
    unfold applyChangeToChar
    rw [if_pos hpos]
  · intro hneg
    unfold applyChangeToChar
    rw [if_neg (by omega), if_pos hneg]
    exact ⟨countMatching_removeByName _ _ _, filter_ne_removeByName _ _ _⟩

/-- Witness for C5: removing three potions from a character holding two
leaves a matching count of zero and raises nothing. -/
theorem c5_inventory_application_witness :
    countMatching
        (applyChangeToChar ⟨sampleItem, -3, some "C1"⟩ twoPotionChar).inventory
        sampleItem.name
      = countMatching twoPotionChar.inventory sampleItem.name
          - (-(-3 : Int)).toNat :=
  ((c5_inventory_application [] [] ⟨sampleItem, -3, some "C1"⟩ twoPotionChar
      List.nodup_nil).2.2.2.2 (by decide)).1

/-! ## Load lemmas -/

theorem loadUsersLoop_characters (l : List (String × Json)) (st : Store)
    (r : Store)
    (h : loadUsersLoop st l = .error r ∨ loadUsersLoop st l = .ok r) :
    r.characters = st.characters := by
  induction l generalizing st with
  | nil =>
    rcases h with h | h
    · simp [loadUsersLoop] at h
    · simp only [loadUsersLoop, Except.ok.injEq] at h
      rw [← h]
  | cons kv rest ih =>
    rcases kv with ⟨username, ud⟩
    rcases hd : decodeUser username ud with _ | u
    · rcases h with h | h <;>
        simp only [loadUsersLoop, hd, Except.error.injEq] at h
      · rw [← h]
      · exact absurd h (by simp)
    · have h2 : loadUsersLoop { st with users := st.users ++ [(username, u)] } rest
            = .error r
          ∨ loadUsersLoop { st with users := st.users ++ [(username, u)] } rest
            = .ok r := by
        rcases h with h | h <;> simp only [loadUsersLoop, hd] at h
        · exact .inl h
        · exact .inr h
      exact ih { st with users := st.users ++ [(username, u)] } h2

theorem stageIdCounters_characters (p : List (String × Json)) (st r : Store)
    (h : stageIdCounters p st = .error r ∨ stageIdCounters p st = .ok r) :
    r.characters = st.characters := by
  rcases h with h | h <;> unfold stageIdCounters at h <;> split at h <;> cases h <;> rfl

theorem stageCurrentUser_characters (p : List (String × Json)) (st r : Store)
    (h : stageCurrentUser p st = .error r ∨ stageCurrentUser p st = .ok r) :
    r.characters = st.characters := by
  rcases h with h | h <;> unfold stageCurrentUser at h <;> split at h <;> cases h <;> rfl

theorem stageUsers_characters (p : List (String × Json)) (st r : Store)
    (h : stageUsers p st = .error r ∨ stageUsers p st = .ok r) :
    r.characters = st.characters := by
  have h2 : ∀ uentries,
      (loadUsersLoop { st with users := [] } uentries = .error r
        ∨ loadUsersLoop { st with users := [] } uentries = .ok r) →
      r.characters = st.characters := fun uentries hu =>
    loadUsersLoop_characters uentries { st with users := [] } r hu
  rcases h with h | h <;> unfold stageUsers at h <;> split at h
  · cases h
    rfl
  · exact h2 _ (.inl h)
  · cases h
  · exact h2 _ (.inr h)

theorem stageRealms_characters (p : List (String × Json)) (st r : Store)
    (h : stageRealms p st = .error r ∨ stageRealms p st = .ok r) :
    r.characters = st.characters := by
  rcases h with h | h <;> unfold stageRealms at h <;> split at h <;> cases h <;> rfl

theorem stageCampaigns_characters (p : List (String × Json)) (st r : Store)
    (h : stageCampaigns p st = .error r ∨ stageCampaigns p st = .ok r) :
    r.characters = st.characters := by
  rcases h with h | h <;> unfold stageCampaigns at h <;> split at h <;> cases h <;> rfl

theorem stageEvents_characters (p : List (String × Json)) (st r : Store)
    (h : stageEvents p st = .error r ∨ stageEvents p st = .ok r) :
    r.characters = st.characters := by
  rcases h with h | h <;> unfold stageEvents at h <;> split at h <;> cases h <;> rfl

theorem stageCharacters_error_characters (p : List (String × Json)) (st r : Store)
    (h : stageCharacters p st = .error r) : r.characters = st.characters := by
  unfold stageCharacters at h
  split at h <;> cases h <;> rfl

/-- A failing `loadStore` never replaces the characters section: it is
assigned last, by an all-or-nothing comprehension. -/
theorem loadStore_error_characters (st : Store) (j : Json) (stE : Store)
    (h : loadStore st j = .error stE) : stE.characters = st.characters := by
  rcases hobj : j.asObj? with _ | p
  · simp only [loadStore, hobj, Except.error.injEq] at h
    rw [← h]
  simp only [loadStore, hobj] at h
  unfold loadParsed at h
  rcases h1 : stageIdCounters p st with e1 | s1 <;> rw [h1] at h <;>
    simp only [Except.bind, Except.map, Except.error.injEq] at h
  · rw [← h]
    exact stageIdCounters_characters p st e1 (.inl h1)
  have hc1 := stageIdCounters_characters p st s1 (.inr h1)
  rcases h2 : stageCurrentUser p s1 with e2 | s2 <;> rw [h2] at h <;>
    simp only [Except.bind, Except.map, Except.error.injEq] at h
  · rw [← h, stageCurrentUser_characters p s1 e2 (.inl h2), hc1]
  have hc2 := (stageCurrentUser_characters p s1 s2 (.inr h2)).trans hc1
  rcases h3 : stageUsers p s2 with e3 | s3 <;> rw [h3] at h <;>
    simp only [Except.bind, Except.map, Except.error.injEq] at h
  · rw [← h, stageUsers_characters p s2 e3 (.inl h3), hc2]
  have hc3 := (stageUsers_characters p s2 s3 (.inr h3)).trans hc2
  rcases h4 : stageRealms p s3 with e4 | s4 <;> rw [h4] at h <;>
    simp only [Except.bind, Except.map, Except.error.injEq] at h
  · rw [← h, stageRealms_characters p s3 e4 (.inl h4), hc3]
  have hc4 := (stageRealms_characters p s3 s4 (.inr h4)).trans hc3
  rcases h5 : stageCampaigns p s4 with e5 | s5 <;> rw [h5] at h <;>
    simp only [Except.bind, Except.map, Except.error.injEq] at h
  · rw [← h, stageCampaigns_characters p s4 e5 (.inl h5), hc4]
  have hc5 := (stageCampaigns_characters p s4 s5 (.inr h5)).trans hc4
  rcases h6 : stageEvents p s5 with e6 | s6 <;> rw [h6] at h <;>
    simp only [Except.bind, Except.map, Except.error.injEq] at h
  · rw [← h, stageEvents_characters p s5 e6 (.inl h6), hc5]
  have hc6 := (stageEvents_characters p s5 s6 (.inr h6)).trans hc5
  rcases h7 : stageCharacters p s6 with e7 | s7 <;> rw [h7] at h <;>
    simp only [Except.bind, Except.map, Except.error.injEq] at h
  · rw [← h, stageCharacters_error_characters p s6 e7 h7, hc6]
  · exact absurd h (by simp)

/-- The `current_user` fixup run at the end of a successful load. -/
theorem stageFixup_inv (st : Store) :
    (stageFixup st).current_user = none
    ∨ ∃ u, (stageFixup st).current_user = some u
        ∧ (u = "" ∨ (lookupUser (stageFixup st).users u).isSome) := by
  rcases hcu : st.current_user with _ | u
  · left
    simp [stageFixup, hcu]
  · by_cases hcond : u ≠ "" ∧ (lookupUser st.users u).isNone
    · left
      simp only [stageFixup, hcu]
      rw [if_pos hcond]
    · right
      refine ⟨u, ?_, ?_⟩
      · simp only [stageFixup, hcu]
        rw [if_neg hcond]
      · by_cases hu : u = ""
        · exact .inl hu
        · right
          show (lookupUser st.users u).isSome = true
          rcases hOpt : lookupUser st.users u with _ | v
          · exact absurd ⟨hu, by simp [hOpt]⟩ hcond
          · simp

/-- Counterexample to C3 as stated: a load that fails while decoding the
campaigns section has already replaced the users and realms sections (and
`current_user`), so a failing load is not free of partial mutation. -/
theorem c3_counterexample :
    load sampleStore (.parsed badCampaignPayload) = .error mutatedStore
    ∧ mutatedStore ≠ sampleStore := by
  refine ⟨rfl, by decide⟩

/-- C3 (amended): only a load that fails before any section is decoded
leaves the store untouched — a missing file (caught and reported), JSON
text that does not parse, or a payload that is not an object; a load
that fails while decoding a section keeps every section at or after the
failure point (in particular the characters section, assigned last, is
never replaced by a failing load), but earlier sections have already
been replaced. -/
theorem c3_load_failure_granularity (st : Store) (j : Json) :
    load st .missing = .ok st
    ∧ load st .garbage = .error st
    ∧ (j.asObj? = none → load st (.parsed j) = .error st)
    ∧ (∀ stErr, load st (.parsed j) = .error stErr →
        stErr.characters = st.characters) := by
  refine ⟨rfl, rfl, ?_, ?_⟩
  · intro h
    show loadStore st j = .error st
    simp only [loadStore, h]
  · intro stErr h
    exact loadStore_error_characters st j stErr h

/-- Witness for C3 at a concrete input: a payload that is not a JSON
object fails with the store unchanged. -/
theorem c3_load_failure_granularity_witness :
    load sampleStore (.parsed (.str "nope")) = .error sampleStore :=
  (c3_load_failure_granularity sampleStore (.str "nope")).2.2.1 rfl

/-- Counterexample to C10 as stated: a loaded empty-string
`current_user` survives the dangling check (`if self.current_user and
...` is skipped by truthiness), so after this successful load
`current_user` is neither `None` nor a loaded user. -/
theorem c10_counterexample :
    loadStore initStore emptyUserPayload
        = .ok { initStore with current_user := some "" }
    ∧ ({ initStore with current_user := some "" } : Store).current_user ≠ none
    ∧ lookupUser ({ initStore with current_user := some "" } : Store).users ""
        = none := by
  refine ⟨rfl, by simp, rfl⟩

/-- C10 (amended): after every successful load the store field
`current_user` is `None`, or names a user present in the loaded users
map, or is the empty string (which the truthiness test exempts from the
dangling-user reset). -/
theorem c10_current_user_after_load (st : Store) (j : Json) (stOk : Store)
    (h : loadStore st j = .ok stOk) :
    stOk.current_user = none
    ∨ ∃ u, stOk.current_user = some u
        ∧ (u = "" ∨ (lookupUser stOk.users u).isSome) := by
  rcases hobj : j.asObj? with _ | p
  · simp only [loadStore, hobj] at h
    cases h
  simp only [loadStore, hobj] at h
  unfold loadParsed at h
  rcases hchain : (((((((stageIdCounters p st).bind (stageCurrentUser p)).bind
      (stageUsers p)).bind (stageRealms p)).bind (stageCampaigns p)).bind
      (stageEvents p)).bind (stageCharacters p)) with stE | stX <;>
    rw [hchain] at h <;> simp only [Except.map] at h
  · cases h
  · simp only [Except.ok.injEq] at h
    rw [← h]
    exact stageFixup_inv stX

/-- Witness for C10: loading the empty document succeeds and satisfies
the amended invariant. -/
theorem c10_current_user_after_load_witness :
    initStore.current_user = none
    ∨ ∃ u, initStore.current_user = some u
        ∧ (u = "" ∨ (lookupUser initStore.users u).isSome) :=
  c10_current_user_after_load initStore (.obj []) initStore rfl

/-- C1: the round-trip contract fails on the code.  Both
`_campaign_to_dict` and `_event_to_dict` write a share permission as
`str(member)` (despite the neighbouring comment intending the bare
value), which for a `(str, Enum)` member yields
`"PermissionLevel.VIEW_ONLY"`; `_dict_to_campaign` then calls
`PermissionLevel("PermissionLevel.VIEW_ONLY")`, which raises
`ValueError`, so decoding the encoded store fails (after replacing the
users and realms sections) instead of returning the original store. -/
theorem c1_share_roundtrip_bug :
    encodeShare ⟨"bob", .VIEW_ONLY⟩
        = .obj [("shared_with_user", .str "bob"),
                ("permission", .str "PermissionLevel.VIEW_ONLY")]
    ∧ decodeShare (encodeShare ⟨"bob", .VIEW_ONLY⟩) = none
    ∧ loadStore initStore (encodeStore sampleStore)
        = .error { initStore with
                   users := sampleStore.users
                   realms := sampleStore.realms
                   id_counters := sampleStore.id_counters
                   current_user := sampleStore.current_user } := by
  refine ⟨rfl, rfl, rfl⟩

end GuildQuest
